import Mathlib

/-!
Shallow embedding of the status/administration and exchange-agreement zomes of
the requests-and-offers Holochain application, together with proofs of the
specified properties.

Modelling conventions:
* Action hashes are natural numbers: the index of the record in the append-only
  record store (`create_entry` / `update_entry` append).
* Path entry hashes are the path strings themselves; link bases are a sum of
  action hashes, path strings and agent keys.
* A zome call is a function from a state to `Except ZomeError (state × result)`;
  an error means the host discards all staged writes of the call, so no state is
  returned (Holochain commits a call's writes only when the call succeeds).
* `sys_time` / `Timestamp::now()` read the `time` field of the state.
-/

deriving instance DecidableEq for Except

namespace RAO

/-- Errors surfaced by the zome calls (the variants of `CommonError`,
`StatusError`, `AdministrationError` that the modelled code paths can hit). -/
inductive ZomeError
  | unauthorized
  | alreadyStatus
  | durationInDaysNotProvided
  | recordNotFound (what : String)
  | linkNotFound (what : String)
  | actionHashNotFound (what : String)
  | invalidData (what : String)
  | entryNotFound (what : String)
  | nonTermination
deriving DecidableEq, Repr

/-- Modelled from the spec: the administration integrity zome's `Status` entry
type is not part of the extracted sources (only its coordinator callers are).
Following the spec's Status data model and the coordinator's field accesses, it
is a record with a string discriminant (`"pending"`, `"accepted"`, `"rejected"`,
`"suspended temporarily"`, `"suspended indefinitely"`), an optional reason and
an optional suspension end (a timestamp in microseconds). -/
structure Status where
  status_type : String
  reason : Option String
  suspended_until : Option Int
deriving DecidableEq, Repr

/-- Modelled from the spec: `Status::pending()` builds the initial `Pending`
status. -/
def Status.pending : Status := ⟨"pending", none, none⟩

/-- Modelled from the spec: `Status::accept()` builds the `Approved` status
(the coordinator compares `status_type` against the string "accepted"). -/
def Status.accept : Status := ⟨"accepted", none, none⟩

/-- Number of microseconds in `d` days: `chrono::Duration::days(d)`. -/
def durationDays (d : Int) : Int := d * 86400000000

/-- Modelled from the spec: `Status::suspend(reason, timing)` builds a
suspended status; with `some (duration, now)` it is a temporary suspension
ending at `now + duration`, with `none` an indefinite suspension. -/
def Status.suspend (reason : String) : Option (Int × Int) → Status
  | some (dur, now) => ⟨"suspended temporarily", some reason, some (now + dur)⟩
  | none => ⟨"suspended indefinitely", some reason, none⟩

/-- Link types used by the administration zome. -/
inductive LinkKind
  | entityStatus
  | allStatuses
  | statusUpdates
  | acceptedEntity
  | agentAdministrators
  | allAdministrators
deriving DecidableEq, Repr

/-- A linkable address: an action hash, a path entry hash (the path string), or
an agent public key. -/
inductive Addr
  | action (h : Nat)
  | path (p : String)
  | agent (a : Nat)
deriving DecidableEq, Repr

/-- A DHT link; `id` is its `create_link_hash`. -/
structure Link where
  id : Nat
  base : Addr
  target : Addr
  lty : LinkKind
  timestamp : Int
deriving DecidableEq, Repr

/-- The kind of the action that committed a record. An `update` carries the
`original_action_address` that `update_entry` was given (its immediate
predecessor in the update chain). -/
inductive ActionKind
  | create
  | update (original : Nat)
  | other
deriving DecidableEq, Repr

/-- A stored record: its action kind plus its entry content when the entry is a
`Status` (entity records of other zomes carry no status content). -/
structure DhtRecord where
  kind : ActionKind
  status : Option Status
deriving DecidableEq, Repr

/-- State of the administration zome's slice of the DHT. -/
structure AdmState where
  records : List DhtRecord
  links : List Link
  nextLinkId : Nat
  time : Int
deriving DecidableEq, Repr

/-- `get_links` filtered by base and link type (filter over the link store,
in creation order). -/
def getLinks (st : AdmState) (base : Addr) (lk : LinkKind) : List Link :=
  st.links.filter (fun l => decide (l.base = base ∧ l.lty = lk))

/-- `create_entry`: append a record committed by a `Create` action; the new
action hash is the record's index. -/
def createEntry (st : AdmState) (s : Status) : AdmState × Nat :=
  ({ st with records := st.records ++ [⟨ActionKind.create, some s⟩] }, st.records.length)

/-- `update_entry(prev, s)`: append a record committed by an `Update` action
whose `original_action_address` is `prev`. -/
def updateEntry (st : AdmState) (prev : Nat) (s : Status) : AdmState × Nat :=
  ({ st with records := st.records ++ [⟨ActionKind.update prev, some s⟩] }, st.records.length)

/-- `create_link`. -/
def createLink (st : AdmState) (base target : Addr) (lk : LinkKind) : AdmState :=
  { st with
    links := st.links ++ [⟨st.nextLinkId, base, target, lk, st.time⟩]
    nextLinkId := st.nextLinkId + 1 }

/-- `delete_link` by `create_link_hash`. -/
def deleteLink (st : AdmState) (i : Nat) : AdmState :=
  { st with links := st.links.filter (fun l => decide (l.id ≠ i)) }

/-- The loop body of `find_original_action_hash`, with explicit fuel (the Rust
`loop` does not terminate on a cyclic store; fuel exhaustion is reported as
`nonTermination`, a case the source would spin on forever). -/
def findOriginalGo (records : List DhtRecord) : Nat → Nat → Except ZomeError Nat
  | 0, _ => .error .nonTermination
  | fuel + 1, h =>
    match records[h]? with
    | none => .error (.recordNotFound "entity")
    | some r =>
      match r.kind with
      | .create => .ok h
      | .update orig => findOriginalGo records fuel orig
      | .other => .error (.invalidData "Unexpected action type")

/-- `find_original_action_hash`: walk the update chain backwards to the root
`Create` action. A terminating walk visits pairwise distinct records, so
`records.length + 1` fuel is enough for every run the Rust loop completes. -/
def find_original_action_hash (st : AdmState) (h : Nat) : Except ZomeError Nat :=
  findOriginalGo st.records (st.records.length + 1) h

/-- Input type `EntityActionHash`. -/
structure EntityActionHash where
  entity : String
  entity_original_action_hash : Nat
deriving DecidableEq, Repr

/-- Input type `EntityAgent`. -/
structure EntityAgent where
  entity : String
  agent_pubkey : Nat
deriving DecidableEq, Repr

/-- Input type `UpdateEntityActionHash`. -/
structure UpdateEntityActionHash where
  entity : String
  entity_original_action_hash : Nat
  status_original_action_hash : Nat
  status_previous_action_hash : Nat
  new_status : Status
deriving DecidableEq, Repr

/-- Input type `SuspendEntityInput`. -/
structure SuspendEntityInput where
  entity : String
  entity_original_action_hash : Nat
  status_original_action_hash : Nat
  status_previous_action_hash : Nat
  reason : String
  duration_in_days : Option Int
deriving DecidableEq, Repr

/-- Input type `UpdateInput`. -/
structure UpdateInput where
  entity : String
  entity_original_action_hash : Nat
  status_original_action_hash : Nat
  status_previous_action_hash : Nat
deriving DecidableEq, Repr

/-- `check_if_agent_is_administrator`: true iff the agent has any
`AgentAdministrators` link, regardless of the `entity` field. -/
def check_if_agent_is_administrator (st : AdmState) (input : EntityAgent) : Bool :=
  !(getLinks st (.agent input.agent_pubkey) .agentAdministrators).isEmpty

/-- `create_status`: resolve the original hash, fail with `AlreadyStatus` when a
current-status (`EntityStatus`) link already exists, otherwise create a
`Pending` status and wire the `AllStatuses` path link and the `EntityStatus`
link. -/
def create_status (st : AdmState) (input : EntityActionHash) :
    Except ZomeError (AdmState × Nat) :=
  match find_original_action_hash st input.entity_original_action_hash with
  | .error e => .error e
  | .ok resolved =>
    if (getLinks st (.action resolved) .entityStatus).isEmpty then
      let r := createEntry st Status.pending
      match r.1.records[r.2]? with
      | none => .error (.recordNotFound "status")
      | some _ =>
        let st2 := createLink r.1 (.path (input.entity ++ ".status")) (.action r.2) .allStatuses
        let st3 := createLink st2 (.action resolved) (.action r.2) .entityStatus
        .ok (st3, r.2)
    else
      .error .alreadyStatus

/-- Rust's `Iterator::max_by` on the timestamp ordering: the last maximal
element, or `none` on an empty list. -/
def maxByTimestamp : List Link → Option Link
  | [] => none
  | l :: ls => some (ls.foldl (fun acc x => if acc.timestamp ≤ x.timestamp then x else acc) l)

/-- `get_latest_status_record`: among the `AllStatuses`-typed links on the given
hash take the one with the maximum timestamp and get its target; fall back to
getting the given hash itself when there is no such link. -/
def get_latest_status_record (st : AdmState) (h : Nat) :
    Except ZomeError (Option DhtRecord) :=
  match maxByTimestamp (getLinks st (.action h) .allStatuses) with
  | some l =>
    match l.target with
    | .action th => .ok st.records[th]?
    | _ => .error (.actionHashNotFound "status")
  | none => .ok st.records[h]?

/-- `get_latest_status`: decode the latest status record's entry. -/
def get_latest_status (st : AdmState) (h : Nat) : Except ZomeError (Option Status) :=
  match get_latest_status_record st h with
  | .error e => .error e
  | .ok none => .error (.recordNotFound "status")
  | .ok (some r) => .ok r.status

/-- `get_latest_status_for_entity`: resolve the entity's original hash, take the
first `EntityStatus` link and delegate to `get_latest_status` on its target
(`none` when the entity has no status link). -/
def get_latest_status_for_entity (st : AdmState) (input : EntityActionHash) :
    Except ZomeError (Option Status) :=
  match find_original_action_hash st input.entity_original_action_hash with
  | .error e => .error e
  | .ok resolved =>
    match (getLinks st (.action resolved) .entityStatus).head? with
    | some l =>
      match l.target with
      | .action th => get_latest_status st th
      | _ => .error (.actionHashNotFound "status")
    | none => .ok none

/-- `create_accepted_entity_link`: add the entity to the
`"<entity>.status.accepted"` path bucket. -/
def create_accepted_entity_link (st : AdmState) (input : EntityActionHash) : AdmState :=
  createLink st (.path (input.entity ++ ".status.accepted"))
    (.action input.entity_original_action_hash) .acceptedEntity

/-- `get_accepted_entities`: the links of the `"<entity>.status.accepted"`
bucket. -/
def get_accepted_entities (st : AdmState) (entity : String) : List Link :=
  getLinks st (.path (entity ++ ".status.accepted")) .acceptedEntity

/-- `delete_accepted_entity_link`: delete the first bucket link targeting the
entity, if any. -/
def delete_accepted_entity_link (st : AdmState) (input : EntityActionHash) : AdmState :=
  match (get_accepted_entities st input.entity).find?
      (fun l => decide (l.target = Addr.action input.entity_original_action_hash)) with
  | some l => deleteLink st l.id
  | none => st

/-- `check_if_entity_is_accepted`: membership of the entity in the accepted
bucket. -/
def check_if_entity_is_accepted (st : AdmState) (input : EntityActionHash) : Bool :=
  (get_accepted_entities st input.entity).any
    (fun l => decide (l.target = Addr.action input.entity_original_action_hash))

/-- The status-write section of `update_entity_status`: create the status
directly (with the `"<entity>.status"` path link and the `EntityStatus` link)
when the entity has no current-status link, otherwise supersede the existing
status with `update_entry`, record the `StatusUpdates` edge, and retarget the
`EntityStatus` link (delete the first one, create a new one). -/
def update_entity_status_step (st : AdmState) (input : UpdateEntityActionHash)
    (resolved : Nat) : Except ZomeError (AdmState × Nat) :=
  let entityLinks := getLinks st (.action resolved) .entityStatus
  if entityLinks.isEmpty then
    let r := createEntry st input.new_status
    let st2 := createLink r.1 (.path (input.entity ++ ".status")) (.action r.2) .allStatuses
    let st3 := createLink st2 (.action resolved) (.action r.2) .entityStatus
    .ok (st3, r.2)
  else
    let r := updateEntry st input.status_previous_action_hash input.new_status
    let st2 := createLink r.1 (.action input.status_original_action_hash)
      (.action r.2) .statusUpdates
    match entityLinks.head? with
    | none => .error (.linkNotFound "entity_status")
    | some fl =>
      let st3 := deleteLink st2 fl.id
      let st4 := createLink st3 (.action resolved) (.action r.2) .entityStatus
      .ok (st4, r.2)

/-- The accepted-bucket rewrite of `update_entity_status`: remove the entity
from the accepted bucket unconditionally, then re-add it only when the new
status is "accepted". -/
def update_entity_status_newbucket (stA : AdmState) (input : UpdateEntityActionHash)
    (resolved : Nat) : AdmState :=
  let stB := delete_accepted_entity_link stA ⟨input.entity, resolved⟩
  if input.new_status.status_type = "accepted" then
    create_accepted_entity_link stB ⟨input.entity, resolved⟩
  else stB

/-- The bucket-reindex tail of `update_entity_status`: rewrite the accepted
bucket, then get the written status record. -/
def update_entity_status_reindex (stA : AdmState) (input : UpdateEntityActionHash)
    (resolved h : Nat) : Except ZomeError (AdmState × Nat) :=
  match (update_entity_status_newbucket stA input resolved).records[h]? with
  | none => .error (.recordNotFound "status")
  | some _ => .ok (update_entity_status_newbucket stA input resolved, h)

/-- `update_entity_status` after its authorization check: resolve the entity's
original hash, write the status, and reindex the accepted bucket. -/
def update_entity_status_body (st : AdmState) (input : UpdateEntityActionHash) :
    Except ZomeError (AdmState × Nat) :=
  match find_original_action_hash st input.entity_original_action_hash with
  | .error e => .error e
  | .ok resolved =>
    match update_entity_status_step st input resolved with
    | .error e => .error e
    | .ok (stA, h) => update_entity_status_reindex stA input resolved h

/-- `update_entity_status`: require the caller to be an administrator, resolve
the entity's original hash, create the status directly when none exists or
supersede the existing one and retarget the `EntityStatus` link, then remove
the entity from the accepted bucket and re-add it only when the new status is
"accepted". -/
def update_entity_status (st : AdmState) (caller : Nat) (input : UpdateEntityActionHash) :
    Except ZomeError (AdmState × Nat) :=
  if check_if_agent_is_administrator st ⟨input.entity, caller⟩ = false then
    .error .unauthorized
  else
    update_entity_status_body st input

/-- Commit semantics of a zome call: on success the written state, on failure
the unchanged pre-call state. -/
def runUpdateEntityStatus (st : AdmState) (caller : Nat) (input : UpdateEntityActionHash) :
    AdmState :=
  match update_entity_status st caller input with
  | .ok (st2, _) => st2
  | .error _ => st

/-- The `UpdateEntityActionHash` that `suspend_entity_temporarily` builds for
its inner `update_entity_status` call. -/
def suspendTempInner (input : SuspendEntityInput) (d : Int) (now : Int) :
    UpdateEntityActionHash :=
  ⟨input.entity, input.entity_original_action_hash, input.status_original_action_hash,
    input.status_previous_action_hash,
    Status.suspend input.reason (some (durationDays d, now))⟩

/-- `suspend_entity_temporarily`: fail with `DurationInDaysNotProvided` when no
duration is given; otherwise delegate to `update_entity_status` with a
temporary suspension ending `duration_in_days` days from now, reporting the
inner call's success as a boolean. -/
def suspend_entity_temporarily (st : AdmState) (caller : Nat) (input : SuspendEntityInput) :
    Except ZomeError (AdmState × Bool) :=
  match input.duration_in_days with
  | none => .error .durationInDaysNotProvided
  | some d =>
    match update_entity_status st caller (suspendTempInner input d st.time) with
    | .ok (st2, _) => .ok (st2, true)
    | .error _ => .ok (st, false)

/-- Commit semantics for `suspend_entity_temporarily`. -/
def runSuspendTemp (st : AdmState) (caller : Nat) (input : SuspendEntityInput) : AdmState :=
  match suspend_entity_temporarily st caller input with
  | .ok (st2, _) => st2
  | .error _ => st

/-- The inner input of `suspend_entity_indefinitely`. -/
def suspendIndefInner (input : SuspendEntityInput) : UpdateEntityActionHash :=
  ⟨input.entity, input.entity_original_action_hash, input.status_original_action_hash,
    input.status_previous_action_hash, Status.suspend input.reason none⟩

/-- `suspend_entity_indefinitely`: delegate to `update_entity_status` with an
indefinite suspension, reporting the inner call's success as a boolean. -/
def suspend_entity_indefinitely (st : AdmState) (caller : Nat) (input : SuspendEntityInput) :
    Except ZomeError (AdmState × Bool) :=
  match update_entity_status st caller (suspendIndefInner input) with
  | .ok (st2, _) => .ok (st2, true)
  | .error _ => .ok (st, false)

/-- The inner input of `unsuspend_entity`. -/
def unsuspendInner (input : UpdateInput) : UpdateEntityActionHash :=
  ⟨input.entity, input.entity_original_action_hash, input.status_original_action_hash,
    input.status_previous_action_hash, Status.accept⟩

/-- `unsuspend_entity`: delegate to `update_entity_status` with the accepted
status, reporting the inner call's success as a boolean. -/
def unsuspend_entity (st : AdmState) (caller : Nat) (input : UpdateInput) :
    Except ZomeError (AdmState × Bool) :=
  match update_entity_status st caller (unsuspendInner input) with
  | .ok (st2, _) => .ok (st2, true)
  | .error _ => .ok (st, false)

/-! ## Exchange zome: agreements -/

/-- `AgreementStatus`. -/
inductive AgreementStatus
  | active
  | inProgress
  | completed
  | cancelledMutual
  | cancelledProvider
  | cancelledReceiver
  | failed
  | disputed
deriving DecidableEq, Repr

/-- The `Agreement` entry. -/
structure Agreement where
  service_details : String
  agreed_terms : String
  exchange_medium : String
  exchange_value : Option String
  delivery_timeframe : Option String
  additional_conditions : Option String
  status : AgreementStatus
  created_at : Int
  start_date : Option Int
  completion_date : Option Int
  updated_at : Int
  provider_validated : Bool
  receiver_validated : Bool
  provider_validated_at : Option Int
  receiver_validated_at : Option Int
deriving DecidableEq, Repr

/-- `Agreement::from_proposal`: a fresh `Active` agreement with both validation
flags cleared (`now` stands for `Timestamp::now()`). -/
def Agreement.from_proposal (now : Int) (service_details agreed_terms exchange_medium : String)
    (exchange_value delivery_timeframe additional_conditions : Option String)
    (start_date completion_date : Option Int) : Agreement :=
  { service_details := service_details
    agreed_terms := agreed_terms
    exchange_medium := exchange_medium
    exchange_value := exchange_value
    delivery_timeframe := delivery_timeframe
    additional_conditions := additional_conditions
    status := AgreementStatus.active
    created_at := now
    start_date := start_date
    completion_date := completion_date
    updated_at := now
    provider_validated := false
    receiver_validated := false
    provider_validated_at := none
    receiver_validated_at := none }

/-- `Agreement::update_status`: overwrite the status field. -/
def Agreement.update_status (a : Agreement) (new_status : AgreementStatus) (now : Int) :
    Agreement :=
  { a with status := new_status, updated_at := now }

/-- `Agreement::validate_by_provider`: set the provider flag and, when the
receiver has already validated, mark the agreement `Completed`. -/
def Agreement.validate_by_provider (a : Agreement) (now : Int) : Agreement :=
  let b := { a with
    provider_validated := true
    provider_validated_at := some now
    updated_at := now }
  if b.receiver_validated then { b with status := AgreementStatus.completed } else b

/-- `Agreement::validate_by_receiver`: set the receiver flag and, when the
provider has already validated, mark the agreement `Completed`. -/
def Agreement.validate_by_receiver (a : Agreement) (now : Int) : Agreement :=
  let b := { a with
    receiver_validated := true
    receiver_validated_at := some now
    updated_at := now }
  if b.provider_validated then { b with status := AgreementStatus.completed } else b

/-- `Agreement::is_mutually_validated`. -/
def Agreement.is_mutually_validated (a : Agreement) : Bool :=
  a.provider_validated && a.receiver_validated

/-- State of the exchange zome's slice of the DHT. Records are either agreement
entries or records of other entry types (proposals), `none` marking the latter.
Link stores are kept per link type as (base, target) pairs; the status-path
index keeps (path, agreement hash) pairs. The administration and
users data consulted through cross-zome calls is carried as plain lists. -/
structure ExchState where
  records : List (Option Agreement)
  provLinks : List (Nat × Nat)
  recvLinks : List (Nat × Nat)
  respLinks : List (Nat × Nat)
  posterLinks : List (Nat × Nat)
  propAgr : List (Nat × Nat)
  allAgr : List Nat
  statusIdx : List (String × Nat)
  admins : List Nat
  agentUserL : List (Nat × Nat)
  acceptedUsers : List Nat
  time : Int
deriving DecidableEq, Repr

/-- The five status path anchors of the agreements index. -/
def statusPathsAll : List String :=
  ["exchanges.agreements.active", "exchanges.agreements.in_progress",
   "exchanges.agreements.completed", "exchanges.agreements.cancelled",
   "exchanges.agreements.disputed"]

/-- The status path anchor an agreement status maps to. -/
def statusPathOf : AgreementStatus → String
  | .active => "exchanges.agreements.active"
  | .inProgress => "exchanges.agreements.in_progress"
  | .completed => "exchanges.agreements.completed"
  | .cancelledMutual => "exchanges.agreements.cancelled"
  | .cancelledProvider => "exchanges.agreements.cancelled"
  | .cancelledReceiver => "exchanges.agreements.cancelled"
  | .failed => "exchanges.agreements.cancelled"
  | .disputed => "exchanges.agreements.disputed"

/-- `index_agreement_by_status`: add the agreement to its status path bucket. -/
def indexAgreementByStatus (st : ExchState) (h : Nat) (s : AgreementStatus) : ExchState :=
  { st with statusIdx := st.statusIdx ++ [(statusPathOf s, h)] }

/-- `remove_agreement_from_status_paths`: delete every link to the agreement
under each of the five status path anchors. -/
def removeAgreementFromStatusPaths (st : ExchState) (h : Nat) : ExchState :=
  { st with statusIdx := st.statusIdx.filter (fun e => decide (¬(e.1 ∈ statusPathsAll ∧ e.2 = h))) }

/-- Cross-zome `check_if_agent_is_administrator` as seen from the exchange
zome. -/
def exchIsAdministrator (st : ExchState) (agent : Nat) : Bool :=
  decide (agent ∈ st.admins)

/-- Cross-zome `get_agent_user`: the user links of the agent. -/
def get_agent_user (st : ExchState) (agent : Nat) : List Nat :=
  (st.agentUserL.filter (fun pr => decide (pr.1 = agent))).map (fun pr => pr.2)

/-- Cross-zome `check_if_entity_is_accepted("users", user_hash)`. -/
def exchUserAccepted (st : ExchState) (userHash : Nat) : Bool :=
  decide (userHash ∈ st.acceptedUsers)

/-- `check_if_agreement_provider`: the agent appears as the target of an
`AgreementToProvider` link based at the given agreement hash. -/
def check_if_agreement_provider (st : ExchState) (h : Nat) (agent : Nat) : Bool :=
  st.provLinks.any (fun pr => decide (pr.1 = h ∧ pr.2 = agent))

/-- `check_if_agreement_receiver`. -/
def check_if_agreement_receiver (st : ExchState) (h : Nat) (agent : Nat) : Bool :=
  st.recvLinks.any (fun pr => decide (pr.1 = h ∧ pr.2 = agent))

/-- `check_if_agreement_participant`: provider or receiver. -/
def check_if_agreement_participant (st : ExchState) (h : Nat) (agent : Nat) : Bool :=
  check_if_agreement_provider st h agent || check_if_agreement_receiver st h agent

/-- Input type `CreateAgreementInput`. -/
structure CreateAgreementInput where
  proposal_hash : Nat
  service_details : String
  agreed_terms : String
  exchange_medium : String
  exchange_value : Option String
  delivery_timeframe : Option String
  additional_conditions : Option String
  start_date : Option Int
  completion_date : Option Int
deriving DecidableEq, Repr

/-- Input type `UpdateAgreementStatusInput`. -/
structure UpdateAgreementStatusInput where
  agreement_hash : Nat
  new_status : AgreementStatus
deriving DecidableEq, Repr

/-- `ValidatorRole`. -/
inductive ValidatorRole
  | provider
  | receiver
deriving DecidableEq, Repr

/-- Input type `ValidateCompletionInput`. -/
structure ValidateCompletionInput where
  agreement_hash : Nat
  validator_role : ValidatorRole
deriving DecidableEq, Repr

/-- `create_agreement_links`: link proposal to agreement, resolve the
proposal's responder (the provider) and original poster (the receiver), link
the agreement to them, and link it under the all-agreements anchor. -/
def create_agreement_links (st : ExchState) (agreementHash proposalHash : Nat) :
    Except ZomeError ExchState :=
  match (st.respLinks.filter (fun pr => decide (pr.1 = proposalHash))).head? with
  | none => .error (.invalidData "Proposal responder not found")
  | some responder =>
    match (st.posterLinks.filter (fun pr => decide (pr.1 = proposalHash))).head? with
    | none => .error (.invalidData "Original poster not found")
    | some poster =>
      .ok { st with
        propAgr := st.propAgr ++ [(proposalHash, agreementHash)]
        provLinks := st.provLinks ++ [(agreementHash, responder.2)]
        recvLinks := st.recvLinks ++ [(agreementHash, poster.2)]
        allAgr := st.allAgr ++ [agreementHash] }

/-- The authorization prologue of `create_agreement`: an administrator, or an
agent whose (first) user record is accepted. -/
def create_agreement_authorized (st : ExchState) (caller : Nat) : Except ZomeError Unit :=
  if exchIsAdministrator st caller then .ok ()
  else
    match (get_agent_user st caller).head? with
    | some userHash =>
      if exchUserAccepted st userHash then .ok () else .error .unauthorized
    | none => .error .unauthorized

/-- `create_agreement`: authorize the caller (administrator, or accepted user),
require the proposal record to exist, create the `Active` agreement entry, wire
its links and index it as active. -/
def create_agreement (st : ExchState) (caller : Nat) (input : CreateAgreementInput) :
    Except ZomeError (ExchState × Nat) :=
  match create_agreement_authorized st caller with
  | .error e => .error e
  | .ok _ =>
    match st.records[input.proposal_hash]? with
    | none => .error (.entryNotFound "Proposal not found")
    | some _ =>
      match create_agreement_links
          { st with records := st.records ++ [some (Agreement.from_proposal st.time
              input.service_details input.agreed_terms input.exchange_medium
              input.exchange_value input.delivery_timeframe input.additional_conditions
              input.start_date input.completion_date)] }
          st.records.length input.proposal_hash with
      | .error e => .error e
      | .ok st2 =>
        .ok (indexAgreementByStatus st2 st.records.length
          (Agreement.from_proposal st.time input.service_details input.agreed_terms
            input.exchange_medium input.exchange_value input.delivery_timeframe
            input.additional_conditions input.start_date input.completion_date).status,
          st.records.length)

/-- `update_agreement_status`: read the agreement record at the input hash,
require the caller to be a participant or an administrator, overwrite its
status, append the updated entry, and move the agreement's status-path index
entry. The index is keyed by the input hash. -/
def update_agreement_status (st : ExchState) (caller : Nat)
    (input : UpdateAgreementStatusInput) : Except ZomeError (ExchState × Nat) :=
  match st.records[input.agreement_hash]? with
  | none => .error (.entryNotFound "Agreement not found")
  | some none => .error (.entryNotFound "Invalid agreement entry")
  | some (some agreement) =>
    if check_if_agreement_participant st input.agreement_hash caller = false
        && exchIsAdministrator st caller = false then
      .error .unauthorized
    else
      let a2 := agreement.update_status input.new_status st.time
      let updatedHash := st.records.length
      let st1 := { st with records := st.records ++ [some a2] }
      let st2 := indexAgreementByStatus
        (removeAgreementFromStatusPaths st1 input.agreement_hash)
        input.agreement_hash a2.status
      .ok (st2, updatedHash)

/-- The role check of `validate_completion`: the caller must match the
provider (resp. receiver) link of the input hash; on success the corresponding
validation flag is applied to the agreement read. -/
def validate_completion_check (st : ExchState) (caller : Nat)
    (input : ValidateCompletionInput) (agreement : Agreement) : Except ZomeError Agreement :=
  match input.validator_role with
  | .provider =>
    if check_if_agreement_provider st input.agreement_hash caller = false then
      .error .unauthorized
    else .ok (agreement.validate_by_provider st.time)
  | .receiver =>
    if check_if_agreement_receiver st input.agreement_hash caller = false then
      .error .unauthorized
    else .ok (agreement.validate_by_receiver st.time)

/-- `validate_completion`: read the agreement record at the input hash, check
the caller against the provider (resp. receiver) links of that hash, apply
`validate_by_provider` (resp. `validate_by_receiver`), append the updated
entry, and reindex the input hash when both parties have validated. -/
def validate_completion (st : ExchState) (caller : Nat) (input : ValidateCompletionInput) :
    Except ZomeError (ExchState × Nat) :=
  match st.records[input.agreement_hash]? with
  | none => .error (.entryNotFound "Agreement not found")
  | some none => .error (.entryNotFound "Invalid agreement entry")
  | some (some agreement) =>
    match validate_completion_check st caller input agreement with
    | .error e => .error e
    | .ok a2 =>
      .ok ((if a2.is_mutually_validated then
          indexAgreementByStatus
            (removeAgreementFromStatusPaths
              { st with records := st.records ++ [some a2] } input.agreement_hash)
            input.agreement_hash a2.status
        else { st with records := st.records ++ [some a2] }), st.records.length)

/-- A call into the exchange zome, for reachability statements. -/
inductive ExchCall
  | mkAgreement (caller : Nat) (input : CreateAgreementInput)
  | setStatus (caller : Nat) (input : UpdateAgreementStatusInput)
  | validate (caller : Nat) (input : ValidateCompletionInput)
deriving DecidableEq, Repr

/-- Whether a call is a direct status overwrite (`update_agreement_status`). -/
def ExchCall.isStatusOverride : ExchCall → Bool
  | .setStatus _ _ => true
  | _ => false

/-- Execute one call with commit semantics: failed calls leave the state
unchanged. -/
def execCall (st : ExchState) : ExchCall → ExchState
  | .mkAgreement caller input =>
    match create_agreement st caller input with
    | .ok (st2, _) => st2
    | .error _ => st
  | .setStatus caller input =>
    match update_agreement_status st caller input with
    | .ok (st2, _) => st2
    | .error _ => st
  | .validate caller input =>
    match validate_completion st caller input with
    | .ok (st2, _) => st2
    | .error _ => st

/-- Execute a sequence of calls. -/
def execTrace (st : ExchState) (tr : List ExchCall) : ExchState :=
  tr.foldl execCall st

/-- The links of the accepted bucket of `entity` that target the entity hash
`E`. -/
def bucketHits (st : AdmState) (entity : String) (E : Nat) : List Link :=
  (get_accepted_entities st entity).filter (fun l => decide (l.target = Addr.action E))

/-- The invariant of claim C2 on a record store: every stored agreement whose
status is `Completed` carries both validation flags. -/
def AgrInv (rs : List (Option Agreement)) : Prop :=
  ∀ a : Agreement, some a ∈ rs → a.status = AgreementStatus.completed →
    a.provider_validated = true ∧ a.receiver_validated = true

/-- A concrete exchange-zome environment: record 0 is a proposal whose
responder (the provider) is agent 10 — an accepted user with user record hash
5 — and whose original poster (the receiver) is agent 20; agent 30 is an
administrator. -/
def exchInit : ExchState :=
  { records := [none]
    provLinks := []
    recvLinks := []
    respLinks := [(0, 10)]
    posterLinks := [(0, 20)]
    propAgr := []
    allAgr := []
    statusIdx := []
    admins := [30]
    agentUserL := [(10, 5)]
    acceptedUsers := [5]
    time := 100 }

/-- A concrete `CreateAgreementInput` over the proposal of `exchInit`. -/
def exchCreateInput : CreateAgreementInput :=
  ⟨0, "svc", "terms", "med", none, none, none, none, none⟩

/-! ## Supporting lemmas -/

theorem findOriginalGo_ok_create {rs : List DhtRecord} {fuel h r : Nat}
    (hk : findOriginalGo rs fuel h = .ok r) :
    ∃ rec, rs[r]? = some rec ∧ rec.kind = ActionKind.create := by
  induction fuel generalizing h with
  | zero => simp [findOriginalGo] at hk
  | succ n ih =>
    rw [findOriginalGo] at hk
    cases hrec : rs[h]? with
    | none => simp only [hrec] at hk; exact Except.noConfusion hk
    | some rec =>
      simp only [hrec] at hk
      cases hkind : rec.kind with
      | create =>
        simp only [hkind] at hk
        cases hk
        exact ⟨rec, hrec, hkind⟩
      | update orig =>
        simp only [hkind] at hk
        exact ih hk
      | other => simp only [hkind] at hk; exact Except.noConfusion hk

theorem findOriginalGo_create_self {rs : List DhtRecord} {fuel h : Nat} {rec : DhtRecord}
    (hrec : rs[h]? = some rec) (hkind : rec.kind = ActionKind.create) (hf : 0 < fuel) :
    findOriginalGo rs fuel h = .ok h := by
  cases fuel with
  | zero => omega
  | succ n => simp only [findOriginalGo, hrec, hkind]

theorem findOriginalGo_append {rs ex : List DhtRecord} {fuel h r : Nat}
    (hk : findOriginalGo rs fuel h = .ok r) :
    findOriginalGo (rs ++ ex) fuel h = .ok r := by
  induction fuel generalizing h with
  | zero => simp [findOriginalGo] at hk
  | succ n ih =>
    rw [findOriginalGo] at hk ⊢
    cases hrec : rs[h]? with
    | none => simp only [hrec] at hk; exact Except.noConfusion hk
    | some rec =>
      simp only [hrec] at hk
      have hlt : h < rs.length := by
        rcases List.getElem?_eq_some.mp hrec with ⟨hl, _⟩
        exact hl
      rw [List.getElem?_append_left hlt, hrec]
      cases hkind : rec.kind with
      | create => simp only [hkind] at hk ⊢; exact hk
      | update orig => simp only [hkind] at hk ⊢; exact ih hk
      | other => simp only [hkind] at hk; exact Except.noConfusion hk

theorem findOriginalGo_fuel_mono {rs : List DhtRecord} {fuel fuel' h r : Nat}
    (hle : fuel ≤ fuel') (hk : findOriginalGo rs fuel h = .ok r) :
    findOriginalGo rs fuel' h = .ok r := by
  induction fuel generalizing fuel' h with
  | zero => simp [findOriginalGo] at hk
  | succ n ih =>
    cases fuel' with
    | zero => omega
    | succ m =>
      rw [findOriginalGo] at hk ⊢
      cases hrec : rs[h]? with
      | none => simp only [hrec] at hk; exact Except.noConfusion hk
      | some rec =>
        simp only [hrec] at hk
        simp only [hrec]
        cases hkind : rec.kind with
        | create => simp only [hkind] at hk ⊢; exact hk
        | update orig => simp only [hkind] at hk ⊢; exact ih (by omega) hk
        | other => simp only [hkind] at hk; exact Except.noConfusion hk

theorem find_original_extend {st st1 : AdmState} {ex : List DhtRecord} {h r : Nat}
    (hrec : st1.records = st.records ++ ex)
    (hk : find_original_action_hash st h = .ok r) :
    find_original_action_hash st1 h = .ok r := by
  unfold find_original_action_hash at hk ⊢
  rw [hrec]
  exact findOriginalGo_fuel_mono (by simp only [List.length_append]; omega)
    (findOriginalGo_append hk)

theorem getLinks_createLink (st : AdmState) (b t : Addr) (lk : LinkKind) (b' : Addr)
    (lk' : LinkKind) :
    getLinks (createLink st b t lk) b' lk' =
      getLinks st b' lk' ++
        (if b = b' ∧ lk = lk' then [⟨st.nextLinkId, b, t, lk, st.time⟩] else []) := by
  by_cases hc : b = b' ∧ lk = lk' <;>
    simp [getLinks, createLink, List.filter_append, hc]

theorem getLinks_createEntry (st : AdmState) (s : Status) (b : Addr) (lk : LinkKind) :
    getLinks (createEntry st s).1 b lk = getLinks st b lk := rfl

theorem getLinks_updateEntry (st : AdmState) (prev : Nat) (s : Status) (b : Addr)
    (lk : LinkKind) :
    getLinks (updateEntry st prev s).1 b lk = getLinks st b lk := rfl

theorem filter_swap {α : Type} (p q : α → Bool) (l : List α) :
    (l.filter p).filter q = (l.filter q).filter p := by
  induction l with
  | nil => rfl
  | cons x xs ih =>
    by_cases hp : p x <;> by_cases hq : q x <;> simp [List.filter, hp, hq, ih]

theorem getLinks_deleteLink (st : AdmState) (i : Nat) (b : Addr) (lk : LinkKind) :
    getLinks (deleteLink st i) b lk = (getLinks st b lk).filter (fun l => decide (l.id ≠ i)) := by
  simp only [getLinks, deleteLink]
  exact filter_swap _ _ _

/-! ## C7 -/

/-- C7: a successful `create_status` creates a `Pending` status record and
wires both the `"<entity>.status"` path-bucket link and the current-status
(`EntityStatus`) link; a second `create_status` on the same entity then fails
with `AlreadyStatus`. -/
theorem c7_create_status_twice (st : AdmState) (input : EntityActionHash)
    (st1 : AdmState) (h1 : Nat)
    (hok : create_status st input = .ok (st1, h1)) :
    create_status st1 input = .error .alreadyStatus
    ∧ h1 = st.records.length
    ∧ st1.records = st.records ++ [⟨ActionKind.create, some Status.pending⟩]
    ∧ ∃ resolved,
        find_original_action_hash st input.entity_original_action_hash = .ok resolved
        ∧ st1.links = st.links ++
            [⟨st.nextLinkId, Addr.path (input.entity ++ ".status"), Addr.action h1,
              LinkKind.allStatuses, st.time⟩,
             ⟨st.nextLinkId + 1, Addr.action resolved, Addr.action h1,
              LinkKind.entityStatus, st.time⟩] := by
  unfold create_status at hok
  cases hres : find_original_action_hash st input.entity_original_action_hash with
  | error e => rw [hres] at hok; exact Except.noConfusion hok
  | ok resolved =>
    rw [hres] at hok
    by_cases hemp : (getLinks st (.action resolved) .entityStatus).isEmpty
    · simp only [hemp, if_true, createEntry, List.getElem?_concat_length] at hok
      have hpair : st1 = createLink
            (createLink { st with records := st.records ++ [⟨ActionKind.create, some Status.pending⟩] }
              (.path (input.entity ++ ".status")) (.action st.records.length) .allStatuses)
            (.action resolved) (.action st.records.length) .entityStatus
          ∧ h1 = st.records.length := by
        cases hok
        exact ⟨rfl, rfl⟩
      obtain ⟨hst1, hh1⟩ := hpair
      have hrecs : st1.records = st.records ++ [⟨ActionKind.create, some Status.pending⟩] := by
        rw [hst1]; rfl
      have hlinks : st1.links = st.links ++
          [⟨st.nextLinkId, Addr.path (input.entity ++ ".status"), Addr.action h1,
            LinkKind.allStatuses, st.time⟩,
           ⟨st.nextLinkId + 1, Addr.action resolved, Addr.action h1,
            LinkKind.entityStatus, st.time⟩] := by
        rw [hst1, hh1]; simp [createLink]
      have hres1 : find_original_action_hash st1 input.entity_original_action_hash
          = .ok resolved := find_original_extend hrecs hres
      have hlk : getLinks st1 (.action resolved) .entityStatus =
          getLinks st (.action resolved) .entityStatus ++
            [⟨st.nextLinkId + 1, Addr.action resolved, Addr.action h1,
              LinkKind.entityStatus, st.time⟩] := by
        simp only [getLinks, hlinks, List.filter_append]
        simp
      have hne : (getLinks st1 (.action resolved) .entityStatus).isEmpty = false := by
        rw [hlk, List.isEmpty_iff.mp hemp]
        rfl
      refine ⟨?_, hh1, hrecs, ⟨resolved, rfl, hlinks⟩⟩
      unfold create_status
      simp [hres1, hne]
    · simp [hemp] at hok

/-- Witness for C7 on a concrete one-entity state. -/
theorem c7_witness :
    create_status
        (createLink (createLink ⟨[⟨ActionKind.create, none⟩, ⟨ActionKind.create,
            some Status.pending⟩], [], 0, 9⟩
          (.path ("users" ++ ".status")) (.action 1) .allStatuses)
          (.action 0) (.action 1) .entityStatus) ⟨"users", 0⟩ = .error .alreadyStatus
    ∧ 1 = (⟨[⟨ActionKind.create, none⟩], [], 0, 9⟩ : AdmState).records.length
    ∧ (createLink (createLink ⟨[⟨ActionKind.create, none⟩, ⟨ActionKind.create,
          some Status.pending⟩], [], 0, 9⟩
        (.path ("users" ++ ".status")) (.action 1) .allStatuses)
        (.action 0) (.action 1) .entityStatus).records =
        (⟨[⟨ActionKind.create, none⟩], [], 0, 9⟩ : AdmState).records ++
          [⟨ActionKind.create, some Status.pending⟩]
    ∧ ∃ resolved,
        find_original_action_hash (⟨[⟨ActionKind.create, none⟩], [], 0, 9⟩ : AdmState) 0
          = .ok resolved
        ∧ (createLink (createLink ⟨[⟨ActionKind.create, none⟩, ⟨ActionKind.create,
              some Status.pending⟩], [], 0, 9⟩
            (.path ("users" ++ ".status")) (.action 1) .allStatuses)
            (.action 0) (.action 1) .entityStatus).links =
            (⟨[⟨ActionKind.create, none⟩], [], 0, 9⟩ : AdmState).links ++
              [⟨0, Addr.path ("users" ++ ".status"), Addr.action 1,
                LinkKind.allStatuses, 9⟩,
               ⟨0 + 1, Addr.action resolved, Addr.action 1, LinkKind.entityStatus, 9⟩] :=
  c7_create_status_twice ⟨[⟨ActionKind.create, none⟩], [], 0, 9⟩ ⟨"users", 0⟩
    (createLink (createLink ⟨[⟨ActionKind.create, none⟩, ⟨ActionKind.create,
        some Status.pending⟩], [], 0, 9⟩
      (.path ("users" ++ ".status")) (.action 1) .allStatuses)
      (.action 0) (.action 1) .entityStatus) 1 (by decide)

/-! ## C5 -/

/-- The accumulator of the `max_by` fold never decreases and dominates every
element folded over. -/
theorem foldl_maxTs_le (rest : List Link) (a : Link) :
    a.timestamp ≤ (rest.foldl
        (fun acc x => if acc.timestamp ≤ x.timestamp then x else acc) a).timestamp
    ∧ ∀ x ∈ rest, x.timestamp ≤ (rest.foldl
        (fun acc x => if acc.timestamp ≤ x.timestamp then x else acc) a).timestamp := by
  induction rest generalizing a with
  | nil => exact ⟨le_refl _, by intro x hx; cases hx⟩
  | cons y ys ih =>
    have hstep : a.timestamp ≤ (if a.timestamp ≤ y.timestamp then y else a).timestamp
        ∧ y.timestamp ≤ (if a.timestamp ≤ y.timestamp then y else a).timestamp := by
      by_cases hc : a.timestamp ≤ y.timestamp
      · simp [hc]
      · constructor
        · simp [hc]
        · rw [if_neg hc]; omega
    constructor
    · exact le_trans hstep.1 (ih (if a.timestamp ≤ y.timestamp then y else a)).1
    · intro x hx
      cases hx with
      | head => exact le_trans hstep.2 (ih _).1
      | tail _ hmem => exact (ih _).2 x hmem

/-- `maxByTimestamp` returns an element with the maximum timestamp. -/
theorem maxByTimestamp_is_max {ls : List Link} {m : Link}
    (hm : maxByTimestamp ls = some m) : ∀ x ∈ ls, x.timestamp ≤ m.timestamp := by
  cases ls with
  | nil => exact absurd hm (by simp [maxByTimestamp])
  | cons l rest =>
    intro x hx
    have hm2 : m = rest.foldl
        (fun acc x => if acc.timestamp ≤ x.timestamp then x else acc) l := by
      simp only [maxByTimestamp] at hm
      cases hm
      rfl
    rw [hm2]
    cases hx with
    | head => exact (foldl_maxTs_le rest l).1
    | tail _ hmem => exact (foldl_maxTs_le rest l).2 x hmem

/-- C5: `get_latest_status_for_entity` consults only the first current-status
edge of the (resolved) entity and delegates to `get_latest_status` on its
target; there, the revision attached to the maximum-timestamp edge is
returned, falling back to the status revision given when no such edge exists,
and a returned maximum-timestamp edge dominates the timestamps of all
consulted edges. -/
theorem c5_latest_status_resolution (st : AdmState) (input : EntityActionHash)
    (r : Nat) (l : Link) (th : Nat)
    (hres : find_original_action_hash st input.entity_original_action_hash = .ok r)
    (hl : (getLinks st (.action r) .entityStatus).head? = some l)
    (ht : l.target = Addr.action th) :
    get_latest_status_for_entity st input = get_latest_status st th
    ∧ (maxByTimestamp (getLinks st (.action th) .allStatuses) = none →
        get_latest_status_record st th = .ok st.records[th]?)
    ∧ (∀ m mh, maxByTimestamp (getLinks st (.action th) .allStatuses) = some m →
        m.target = Addr.action mh →
        get_latest_status_record st th = .ok st.records[mh]?
        ∧ ∀ x ∈ getLinks st (.action th) .allStatuses, x.timestamp ≤ m.timestamp) := by
  refine ⟨?_, ?_, ?_⟩
  · unfold get_latest_status_for_entity
    simp only [hres, hl, ht]
  · intro hnone
    unfold get_latest_status_record
    simp only [hnone]
  · intro m mh hm hmt
    constructor
    · unfold get_latest_status_record
      simp only [hm, hmt]
    · exact maxByTimestamp_is_max hm

/-- Witness for C5 on a concrete state with one entity, one current-status
edge and one status-update edge. -/
theorem c5_witness :
    get_latest_status_for_entity
        ⟨[⟨ActionKind.create, none⟩, ⟨ActionKind.create, some Status.pending⟩,
          ⟨ActionKind.update 1, some Status.accept⟩],
         [⟨0, Addr.action 0, Addr.action 1, LinkKind.entityStatus, 5⟩,
          ⟨1, Addr.action 1, Addr.action 2, LinkKind.allStatuses, 7⟩], 2, 9⟩ ⟨"users", 0⟩
      = get_latest_status
        ⟨[⟨ActionKind.create, none⟩, ⟨ActionKind.create, some Status.pending⟩,
          ⟨ActionKind.update 1, some Status.accept⟩],
         [⟨0, Addr.action 0, Addr.action 1, LinkKind.entityStatus, 5⟩,
          ⟨1, Addr.action 1, Addr.action 2, LinkKind.allStatuses, 7⟩], 2, 9⟩ 1
    ∧ (maxByTimestamp (getLinks
        ⟨[⟨ActionKind.create, none⟩, ⟨ActionKind.create, some Status.pending⟩,
          ⟨ActionKind.update 1, some Status.accept⟩],
         [⟨0, Addr.action 0, Addr.action 1, LinkKind.entityStatus, 5⟩,
          ⟨1, Addr.action 1, Addr.action 2, LinkKind.allStatuses, 7⟩], 2, 9⟩
        (.action 1) .allStatuses) = none →
      get_latest_status_record
        ⟨[⟨ActionKind.create, none⟩, ⟨ActionKind.create, some Status.pending⟩,
          ⟨ActionKind.update 1, some Status.accept⟩],
         [⟨0, Addr.action 0, Addr.action 1, LinkKind.entityStatus, 5⟩,
          ⟨1, Addr.action 1, Addr.action 2, LinkKind.allStatuses, 7⟩], 2, 9⟩ 1
        = .ok (⟨[⟨ActionKind.create, none⟩, ⟨ActionKind.create, some Status.pending⟩,
          ⟨ActionKind.update 1, some Status.accept⟩],
         [⟨0, Addr.action 0, Addr.action 1, LinkKind.entityStatus, 5⟩,
          ⟨1, Addr.action 1, Addr.action 2, LinkKind.allStatuses, 7⟩], 2, 9⟩ :
            AdmState).records[1]?)
    ∧ (∀ m mh, maxByTimestamp (getLinks
        ⟨[⟨ActionKind.create, none⟩, ⟨ActionKind.create, some Status.pending⟩,
          ⟨ActionKind.update 1, some Status.accept⟩],
         [⟨0, Addr.action 0, Addr.action 1, LinkKind.entityStatus, 5⟩,
          ⟨1, Addr.action 1, Addr.action 2, LinkKind.allStatuses, 7⟩], 2, 9⟩
        (.action 1) .allStatuses) = some m →
      m.target = Addr.action mh →
      get_latest_status_record
        ⟨[⟨ActionKind.create, none⟩, ⟨ActionKind.create, some Status.pending⟩,
          ⟨ActionKind.update 1, some Status.accept⟩],
         [⟨0, Addr.action 0, Addr.action 1, LinkKind.entityStatus, 5⟩,
          ⟨1, Addr.action 1, Addr.action 2, LinkKind.allStatuses, 7⟩], 2, 9⟩ 1
        = .ok (⟨[⟨ActionKind.create, none⟩, ⟨ActionKind.create, some Status.pending⟩,
          ⟨ActionKind.update 1, some Status.accept⟩],
         [⟨0, Addr.action 0, Addr.action 1, LinkKind.entityStatus, 5⟩,
          ⟨1, Addr.action 1, Addr.action 2, LinkKind.allStatuses, 7⟩], 2, 9⟩ :
            AdmState).records[mh]?
      ∧ ∀ x ∈ getLinks
        ⟨[⟨ActionKind.create, none⟩, ⟨ActionKind.create, some Status.pending⟩,
          ⟨ActionKind.update 1, some Status.accept⟩],
         [⟨0, Addr.action 0, Addr.action 1, LinkKind.entityStatus, 5⟩,
          ⟨1, Addr.action 1, Addr.action 2, LinkKind.allStatuses, 7⟩], 2, 9⟩
        (.action 1) .allStatuses, x.timestamp ≤ m.timestamp) :=
  c5_latest_status_resolution
    ⟨[⟨ActionKind.create, none⟩, ⟨ActionKind.create, some Status.pending⟩,
      ⟨ActionKind.update 1, some Status.accept⟩],
     [⟨0, Addr.action 0, Addr.action 1, LinkKind.entityStatus, 5⟩,
      ⟨1, Addr.action 1, Addr.action 2, LinkKind.allStatuses, 7⟩], 2, 9⟩ ⟨"users", 0⟩
    0 ⟨0, Addr.action 0, Addr.action 1, LinkKind.entityStatus, 5⟩ 1
    (by decide) (by decide) (by decide)

/-! ## C4 -/

theorem any_eq_not_isEmpty_filter {α : Type} (p : α → Bool) (l : List α) :
    l.any p = !(l.filter p).isEmpty := by
  induction l with
  | nil => rfl
  | cons x xs ih => by_cases h : p x <;> simp [List.filter, h, ih]

theorem find?_eq_head?_filter {α : Type} (p : α → Bool) (l : List α) :
    l.find? p = (l.filter p).head? := by
  induction l with
  | nil => rfl
  | cons x xs ih =>
    cases h : p x with
    | true => simp [List.find?_cons_of_pos _ h, List.filter_cons_of_pos h]
    | false =>
      rw [List.find?_cons_of_neg _ (by simp [h]), List.filter_cons_of_neg (by simp [h])]
      exact ih

theorem records_delete_accepted (st : AdmState) (inp : EntityActionHash) :
    (delete_accepted_entity_link st inp).records = st.records := by
  unfold delete_accepted_entity_link
  cases h : (get_accepted_entities st inp.entity).find?
      (fun l => decide (l.target = Addr.action inp.entity_original_action_hash)) <;>
    simp [h, deleteLink]

theorem bucketHits_createLink_ne (st : AdmState) (b t : Addr) (lk : LinkKind)
    (e : String) (E : Nat) (hlk : lk ≠ LinkKind.acceptedEntity) :
    bucketHits (createLink st b t lk) e E = bucketHits st e E := by
  unfold bucketHits get_accepted_entities
  rw [getLinks_createLink, if_neg (fun hc => hlk hc.2)]
  simp

theorem bucketHits_deleteLink (st : AdmState) (i : Nat) (e : String) (E : Nat) :
    bucketHits (deleteLink st i) e E
      = (bucketHits st e E).filter (fun l => decide (l.id ≠ i)) := by
  unfold bucketHits get_accepted_entities
  rw [getLinks_deleteLink]
  exact filter_swap _ _ _

theorem bucketHits_create_accepted (st : AdmState) (e : String) (E : Nat) :
    bucketHits (create_accepted_entity_link st ⟨e, E⟩) e E
      = bucketHits st e E ++
        [⟨st.nextLinkId, Addr.path (e ++ ".status.accepted"), Addr.action E,
          LinkKind.acceptedEntity, st.time⟩] := by
  unfold bucketHits get_accepted_entities create_accepted_entity_link
  rw [getLinks_createLink, if_pos ⟨rfl, rfl⟩, List.filter_append]
  simp

theorem check_eq_not_isEmpty (st : AdmState) (e : String) (E : Nat) :
    check_if_entity_is_accepted st ⟨e, E⟩ = !(bucketHits st e E).isEmpty := by
  unfold check_if_entity_is_accepted bucketHits
  exact any_eq_not_isEmpty_filter _ _

theorem hits_after_delete (stA : AdmState) (e : String) (E : Nat)
    (hle : (bucketHits stA e E).length ≤ 1) :
    bucketHits (delete_accepted_entity_link stA ⟨e, E⟩) e E = [] := by
  have hfind : (get_accepted_entities stA e).find?
      (fun l => decide (l.target = Addr.action E)) = (bucketHits stA e E).head? := by
    rw [find?_eq_head?_filter]; rfl
  cases hB : bucketHits stA e E with
  | nil =>
    simp only [delete_accepted_entity_link, hfind, hB, List.head?]
  | cons l0 tail =>
    have htail : tail = [] := by
      rw [hB] at hle
      simp only [List.length_cons] at hle
      exact List.length_eq_zero.mp (by omega)
    subst htail
    simp only [delete_accepted_entity_link, hfind, hB, List.head?]
    rw [bucketHits_deleteLink, hB]
    simp [List.filter]

theorem bucket_step (stB : AdmState) (e : String) (E : Nat) (ns : Status)
    (hB : bucketHits stB e E = []) :
    check_if_entity_is_accepted
        (if ns.status_type = "accepted" then create_accepted_entity_link stB ⟨e, E⟩ else stB)
        ⟨e, E⟩
      = decide (ns.status_type = "accepted")
    ∧ (¬(ns.status_type = "accepted") →
      bucketHits
        (if ns.status_type = "accepted" then create_accepted_entity_link stB ⟨e, E⟩ else stB)
        e E = []) := by
  by_cases hA : ns.status_type = "accepted"
  · rw [if_pos hA, check_eq_not_isEmpty, bucketHits_create_accepted, hB]
    exact ⟨by simp [hA], fun hcontra => absurd hA hcontra⟩
  · rw [if_neg hA, check_eq_not_isEmpty, hB]
    exact ⟨by simp [hA], fun _ => rfl⟩

theorem step_bucket (st : AdmState) (input : UpdateEntityActionHash) (resolved : Nat)
    (stA : AdmState) (h : Nat)
    (hstep : update_entity_status_step st input resolved = .ok (stA, h)) :
    (bucketHits stA input.entity input.entity_original_action_hash).length
      ≤ (bucketHits st input.entity input.entity_original_action_hash).length := by
  unfold update_entity_status_step at hstep
  by_cases hemp : (getLinks st (.action resolved) .entityStatus).isEmpty
  · simp only [hemp, if_true] at hstep
    cases hstep
    rw [bucketHits_createLink_ne _ _ _ _ _ _ (by decide),
      bucketHits_createLink_ne _ _ _ _ _ _ (by decide)]
    exact le_refl _
  · simp only [hemp, Bool.false_eq_true, if_false] at hstep
    cases hh : (getLinks st (.action resolved) .entityStatus).head? with
    | none => simp only [hh] at hstep; exact Except.noConfusion hstep
    | some fl =>
      simp only [hh] at hstep
      cases hstep
      rw [bucketHits_createLink_ne _ _ _ _ _ _ (by decide), bucketHits_deleteLink,
        bucketHits_createLink_ne _ _ _ _ _ _ (by decide)]
      exact List.length_filter_le _ _

theorem reindex_ok (stA : AdmState) (input : UpdateEntityActionHash) (resolved h : Nat)
    (st2 : AdmState) (hout : Nat)
    (hok : update_entity_status_reindex stA input resolved h = .ok (st2, hout)) :
    st2 = (if input.new_status.status_type = "accepted"
        then create_accepted_entity_link
          (delete_accepted_entity_link stA ⟨input.entity, resolved⟩) ⟨input.entity, resolved⟩
        else delete_accepted_entity_link stA ⟨input.entity, resolved⟩)
    ∧ hout = h := by
  unfold update_entity_status_reindex at hok
  cases hrec : (update_entity_status_newbucket stA input resolved).records[h]? with
  | none => simp only [hrec] at hok; exact Except.noConfusion hok
  | some r =>
    simp only [hrec] at hok
    cases hok
    exact ⟨rfl, rfl⟩

/-- C4: after a successful admin `update_entity_status(E, S)` (with `E` an
original action hash and at most one pre-existing accepted-bucket edge for
`E`), `check_if_entity_is_accepted(E)` returns true exactly when `S` is the
accepted status, and for any other `S` the accepted bucket no longer contains
`E`: the operation removes `E` from the bucket unconditionally and re-adds it
only when the new status is "accepted". -/
theorem c4_update_status_accepted_bucket (st : AdmState) (caller : Nat)
    (input : UpdateEntityActionHash) (st2 : AdmState) (hout : Nat)
    (hres : find_original_action_hash st input.entity_original_action_hash
        = .ok input.entity_original_action_hash)
    (hdup : (bucketHits st input.entity input.entity_original_action_hash).length ≤ 1)
    (hok : update_entity_status st caller input = .ok (st2, hout)) :
    check_if_entity_is_accepted st2 ⟨input.entity, input.entity_original_action_hash⟩
      = decide (input.new_status.status_type = "accepted")
    ∧ (¬(input.new_status.status_type = "accepted") →
      bucketHits st2 input.entity input.entity_original_action_hash = []) := by
  unfold update_entity_status at hok
  split at hok
  · exact Except.noConfusion hok
  · unfold update_entity_status_body at hok
    simp only [hres] at hok
    cases hstep : update_entity_status_step st input input.entity_original_action_hash with
    | error e => simp only [hstep] at hok; exact Except.noConfusion hok
    | ok pr =>
      obtain ⟨stA, h⟩ := pr
      simp only [hstep] at hok
      obtain ⟨hst2, -⟩ := reindex_ok _ _ _ _ _ _ hok
      have hlen : (bucketHits stA input.entity input.entity_original_action_hash).length ≤ 1 :=
        le_trans (step_bucket _ _ _ _ _ hstep) hdup
      have hB := hits_after_delete stA input.entity input.entity_original_action_hash hlen
      have hfin := bucket_step
        (delete_accepted_entity_link stA
          ⟨input.entity, input.entity_original_action_hash⟩)
        input.entity input.entity_original_action_hash input.new_status hB
      rw [hst2]
      exact hfin

/-- Witness for C4: a concrete admin call that sets the accepted status on an
entity with no prior status; the entity lands in the accepted bucket. -/
theorem c4_witness :
    check_if_entity_is_accepted
        ⟨[⟨ActionKind.create, none⟩, ⟨ActionKind.create, some Status.accept⟩],
         [⟨0, Addr.agent 9, Addr.path "boot", LinkKind.agentAdministrators, 0⟩,
          ⟨1, Addr.path ("users" ++ ".status"), Addr.action 1, LinkKind.allStatuses, 3⟩,
          ⟨2, Addr.action 0, Addr.action 1, LinkKind.entityStatus, 3⟩,
          ⟨3, Addr.path ("users" ++ ".status.accepted"), Addr.action 0,
            LinkKind.acceptedEntity, 3⟩], 4, 3⟩ ⟨"users", 0⟩
      = decide (Status.accept.status_type = "accepted")
    ∧ (¬(Status.accept.status_type = "accepted") →
      bucketHits
        ⟨[⟨ActionKind.create, none⟩, ⟨ActionKind.create, some Status.accept⟩],
         [⟨0, Addr.agent 9, Addr.path "boot", LinkKind.agentAdministrators, 0⟩,
          ⟨1, Addr.path ("users" ++ ".status"), Addr.action 1, LinkKind.allStatuses, 3⟩,
          ⟨2, Addr.action 0, Addr.action 1, LinkKind.entityStatus, 3⟩,
          ⟨3, Addr.path ("users" ++ ".status.accepted"), Addr.action 0,
            LinkKind.acceptedEntity, 3⟩], 4, 3⟩ "users" 0 = []) :=
  c4_update_status_accepted_bucket
    ⟨[⟨ActionKind.create, none⟩],
     [⟨0, Addr.agent 9, Addr.path "boot", LinkKind.agentAdministrators, 0⟩], 1, 3⟩ 9
    ⟨"users", 0, 0, 0, Status.accept⟩
    ⟨[⟨ActionKind.create, none⟩, ⟨ActionKind.create, some Status.accept⟩],
     [⟨0, Addr.agent 9, Addr.path "boot", LinkKind.agentAdministrators, 0⟩,
      ⟨1, Addr.path ("users" ++ ".status"), Addr.action 1, LinkKind.allStatuses, 3⟩,
      ⟨2, Addr.action 0, Addr.action 1, LinkKind.entityStatus, 3⟩,
      ⟨3, Addr.path ("users" ++ ".status.accepted"), Addr.action 0,
        LinkKind.acceptedEntity, 3⟩], 4, 3⟩ 1
    (by decide) (by decide) (by decide)

/-! ## C9 -/

/-- C9: `check_if_agent_is_administrator` is independent of the `entity` field:
for the same agent and any two entity strings it returns the same value, so an
agent registered as administrator for one entity type is treated as
administrator for all of them. -/
theorem c9_admin_check_entity_blind (st : AdmState) (a : Nat) (e1 e2 : String) :
    check_if_agent_is_administrator st ⟨e1, a⟩ = check_if_agent_is_administrator st ⟨e2, a⟩ := rfl

/-! ## C3 -/

/-- C3: a call to `update_entity_status` by a caller who is not an
administrator fails with `Unauthorized`; with commit semantics the state is
unchanged, so any subsequent `get_latest_status_for_entity` returns the same
result as before the call. -/
theorem c3_update_entity_status_unauthorized (st : AdmState) (caller : Nat)
    (input : UpdateEntityActionHash) (q : EntityActionHash)
    (h : check_if_agent_is_administrator st ⟨input.entity, caller⟩ = false) :
    update_entity_status st caller input = .error .unauthorized
    ∧ runUpdateEntityStatus st caller input = st
    ∧ get_latest_status_for_entity (runUpdateEntityStatus st caller input) q
        = get_latest_status_for_entity st q := by
  have h1 : update_entity_status st caller input = .error .unauthorized := by
    simp [update_entity_status, h]
  have h2 : runUpdateEntityStatus st caller input = st := by
    simp [runUpdateEntityStatus, h1]
  exact ⟨h1, h2, by rw [h2]⟩

/-- Witness for C3 on a concrete empty state (no administrator links). -/
theorem c3_witness :
    update_entity_status ⟨[⟨ActionKind.create, none⟩], [], 0, 0⟩ 7
        ⟨"users", 0, 0, 0, Status.accept⟩ = .error .unauthorized
    ∧ runUpdateEntityStatus ⟨[⟨ActionKind.create, none⟩], [], 0, 0⟩ 7
        ⟨"users", 0, 0, 0, Status.accept⟩ = ⟨[⟨ActionKind.create, none⟩], [], 0, 0⟩
    ∧ get_latest_status_for_entity
        (runUpdateEntityStatus ⟨[⟨ActionKind.create, none⟩], [], 0, 0⟩ 7
          ⟨"users", 0, 0, 0, Status.accept⟩) ⟨"users", 0⟩
        = get_latest_status_for_entity ⟨[⟨ActionKind.create, none⟩], [], 0, 0⟩ ⟨"users", 0⟩ :=
  c3_update_entity_status_unauthorized ⟨[⟨ActionKind.create, none⟩], [], 0, 0⟩ 7
    ⟨"users", 0, 0, 0, Status.accept⟩ ⟨"users", 0⟩ (by decide)

/-! ## C6 -/

/-- C6: when `find_original_action_hash` succeeds its result is the hash of a
`Create` action, on which the function returns its input immediately, so the
function is idempotent at any chain depth. -/
theorem c6_find_original_idempotent (st : AdmState) (x y : Nat)
    (h : find_original_action_hash st x = .ok y) :
    find_original_action_hash st y = .ok y
    ∧ (find_original_action_hash st x).bind (fun r => find_original_action_hash st r)
        = find_original_action_hash st x
    ∧ ∃ rec, st.records[y]? = some rec ∧ rec.kind = ActionKind.create := by
  obtain ⟨rec, hrec, hkind⟩ := findOriginalGo_ok_create h
  have hself : find_original_action_hash st y = .ok y :=
    findOriginalGo_create_self hrec hkind (by omega)
  exact ⟨hself, by rw [h]; simpa [Except.bind] using hself, rec, hrec, hkind⟩

/-- Witness for C6 on a two-deep update chain. -/
theorem c6_witness :
    find_original_action_hash ⟨[⟨ActionKind.create, none⟩, ⟨ActionKind.update 0, none⟩,
        ⟨ActionKind.update 1, none⟩], [], 0, 0⟩ 0 = .ok 0
    ∧ (find_original_action_hash ⟨[⟨ActionKind.create, none⟩, ⟨ActionKind.update 0, none⟩,
        ⟨ActionKind.update 1, none⟩], [], 0, 0⟩ 2).bind
        (fun r => find_original_action_hash ⟨[⟨ActionKind.create, none⟩,
          ⟨ActionKind.update 0, none⟩, ⟨ActionKind.update 1, none⟩], [], 0, 0⟩ r)
        = find_original_action_hash ⟨[⟨ActionKind.create, none⟩, ⟨ActionKind.update 0, none⟩,
          ⟨ActionKind.update 1, none⟩], [], 0, 0⟩ 2
    ∧ ∃ rec, (⟨[⟨ActionKind.create, none⟩, ⟨ActionKind.update 0, none⟩,
        ⟨ActionKind.update 1, none⟩], [], 0, 0⟩ : AdmState).records[0]? = some rec
        ∧ rec.kind = ActionKind.create :=
  c6_find_original_idempotent ⟨[⟨ActionKind.create, none⟩, ⟨ActionKind.update 0, none⟩,
    ⟨ActionKind.update 1, none⟩], [], 0, 0⟩ 2 0 (by decide)

/-! ## C8 -/

/-- C8: `suspend_entity_temporarily` fails with `DurationInDaysNotProvided`
when no duration is given (before any state change); with a duration it builds
a temporary suspension ending `now + duration_in_days` days and delegates to
`update_entity_status`. -/
theorem c8_suspend_requires_duration (st : AdmState) (caller : Nat)
    (input : SuspendEntityInput) :
    (input.duration_in_days = none →
      suspend_entity_temporarily st caller input = .error .durationInDaysNotProvided
      ∧ runSuspendTemp st caller input = st)
    ∧ (∀ d, input.duration_in_days = some d →
      suspend_entity_temporarily st caller input =
        (match update_entity_status st caller (suspendTempInner input d st.time) with
          | .ok (st2, _) => .ok (st2, true)
          | .error _ => .ok (st, false))
      ∧ (suspendTempInner input d st.time).new_status
          = Status.suspend input.reason (some (durationDays d, st.time))
      ∧ (suspendTempInner input d st.time).new_status.suspended_until
          = some (st.time + durationDays d)) := by
  constructor
  · intro hn
    constructor
    · simp [suspend_entity_temporarily, hn]
    · simp [runSuspendTemp, suspend_entity_temporarily, hn]
  · intro d hd
    refine ⟨by simp [suspend_entity_temporarily, hd], rfl, rfl⟩

/-- Witness for C8: the missing-duration failure and the computed suspension
end, on concrete inputs. -/
theorem c8_witness :
    (suspend_entity_temporarily ⟨[], [], 0, 40⟩ 0 ⟨"users", 0, 0, 0, "r", none⟩
        = .error .durationInDaysNotProvided
      ∧ runSuspendTemp ⟨[], [], 0, 40⟩ 0 ⟨"users", 0, 0, 0, "r", none⟩ = ⟨[], [], 0, 40⟩)
    ∧ (suspendTempInner ⟨"users", 0, 0, 0, "r", some 3⟩ 3
        (⟨[], [], 0, 40⟩ : AdmState).time).new_status.suspended_until
        = some ((⟨[], [], 0, 40⟩ : AdmState).time + durationDays 3) :=
  ⟨(c8_suspend_requires_duration ⟨[], [], 0, 40⟩ 0 ⟨"users", 0, 0, 0, "r", none⟩).1 rfl,
    ((c8_suspend_requires_duration ⟨[], [], 0, 40⟩ 0 ⟨"users", 0, 0, 0, "r", some 3⟩).2
      3 rfl).2.2⟩

/-! ## C10 -/

/-- C10: the suspension wrappers never propagate a failure of the inner
`update_entity_status` call: whenever the inner call fails (for instance with
`Unauthorized`), `suspend_entity_temporarily` (with a duration),
`suspend_entity_indefinitely` and `unsuspend_entity` return `Ok(false)`. -/
theorem c10_wrappers_swallow_inner_failure (st : AdmState) (caller : Nat)
    (sinput : SuspendEntityInput) (uinput : UpdateInput) :
    (∀ d e, sinput.duration_in_days = some d →
      update_entity_status st caller (suspendTempInner sinput d st.time) = .error e →
      suspend_entity_temporarily st caller sinput = .ok (st, false))
    ∧ (∀ e, update_entity_status st caller (suspendIndefInner sinput) = .error e →
      suspend_entity_indefinitely st caller sinput = .ok (st, false))
    ∧ (∀ e, update_entity_status st caller (unsuspendInner uinput) = .error e →
      unsuspend_entity st caller uinput = .ok (st, false)) := by
  refine ⟨fun d e hd he => ?_, fun e he => ?_, fun e he => ?_⟩
  · simp [suspend_entity_temporarily, hd, he]
  · simp [suspend_entity_indefinitely, he]
  · simp [unsuspend_entity, he]

/-- Witness for C10: on a state with no administrators the inner call fails
with `Unauthorized` and all three wrappers return `Ok(false)`. -/
theorem c10_witness :
    suspend_entity_temporarily ⟨[], [], 0, 0⟩ 4 ⟨"users", 0, 0, 0, "r", some 3⟩
        = .ok (⟨[], [], 0, 0⟩, false)
    ∧ suspend_entity_indefinitely ⟨[], [], 0, 0⟩ 4 ⟨"users", 0, 0, 0, "r", some 3⟩
        = .ok (⟨[], [], 0, 0⟩, false)
    ∧ unsuspend_entity ⟨[], [], 0, 0⟩ 4 ⟨"users", 0, 0, 0⟩ = .ok (⟨[], [], 0, 0⟩, false) :=
  ⟨(c10_wrappers_swallow_inner_failure ⟨[], [], 0, 0⟩ 4 ⟨"users", 0, 0, 0, "r", some 3⟩
      ⟨"users", 0, 0, 0⟩).1 3 .unauthorized rfl (by decide),
    (c10_wrappers_swallow_inner_failure ⟨[], [], 0, 0⟩ 4 ⟨"users", 0, 0, 0, "r", some 3⟩
      ⟨"users", 0, 0, 0⟩).2.1 .unauthorized (by decide),
    (c10_wrappers_swallow_inner_failure ⟨[], [], 0, 0⟩ 4 ⟨"users", 0, 0, 0, "r", some 3⟩
      ⟨"users", 0, 0, 0⟩).2.2 .unauthorized (by decide)⟩

/-! ## C1 -/

/-- C1: on a concrete `Active` agreement with both validation flags false, the
provider's `validate_completion` leaves the stored status `Active`, but the
receiver's subsequent `validate_completion` does not set it to `Completed`:
with the original agreement hash the call re-reads the original record (losing
the provider's flag) and stores an `Active` revision with only the receiver
flag, and with the hash of the provider's update the call fails `Unauthorized`
because the participant links exist only on the original hash; no stored
revision ever reaches `Completed`. -/
theorem c1_completion_barrier_broken :
    ((execTrace exchInit [ExchCall.mkAgreement 10 exchCreateInput,
        ExchCall.validate 10 ⟨1, ValidatorRole.provider⟩]).records[2]?.map
        (fun r => r.map Agreement.status)) = some (some AgreementStatus.active)
    ∧ ((execTrace exchInit [ExchCall.mkAgreement 10 exchCreateInput,
        ExchCall.validate 10 ⟨1, ValidatorRole.provider⟩,
        ExchCall.validate 20 ⟨1, ValidatorRole.receiver⟩]).records[3]?.map
        (fun r => r.map (fun a => (a.status, a.provider_validated, a.receiver_validated))))
        = some (some (AgreementStatus.active, false, true))
    ∧ validate_completion (execTrace exchInit [ExchCall.mkAgreement 10 exchCreateInput,
        ExchCall.validate 10 ⟨1, ValidatorRole.provider⟩]) 20
        ⟨2, ValidatorRole.receiver⟩ = .error .unauthorized
    ∧ (execTrace exchInit [ExchCall.mkAgreement 10 exchCreateInput,
        ExchCall.validate 10 ⟨1, ValidatorRole.provider⟩,
        ExchCall.validate 20 ⟨1, ValidatorRole.receiver⟩]).records.all
        (fun r => r.all (fun a => decide (a.status ≠ AgreementStatus.completed))) = true := by
  decide

/-! ## C2 -/

theorem records_create_agreement_links {st st2 : ExchState} {ah ph : Nat}
    (h : create_agreement_links st ah ph = .ok st2) : st2.records = st.records := by
  unfold create_agreement_links at h
  split at h
  · exact Except.noConfusion h
  · split at h
    · exact Except.noConfusion h
    · cases h; rfl

theorem agrInv_create {st : ExchState} {caller : Nat} {input : CreateAgreementInput}
    {st2 : ExchState} {h : Nat}
    (hok : create_agreement st caller input = .ok (st2, h)) (hinv : AgrInv st.records) :
    AgrInv st2.records := by
  unfold create_agreement at hok
  cases ha : create_agreement_authorized st caller with
  | error e => simp only [ha] at hok; exact Except.noConfusion hok
  | ok u =>
    simp only [ha] at hok
    cases hp : st.records[input.proposal_hash]? with
    | none => simp only [hp] at hok; exact Except.noConfusion hok
    | some pr =>
      simp only [hp] at hok
      split at hok
      · exact Except.noConfusion hok
      next st3 heq =>
        cases hok
        intro a ha2 hc
        rw [show (indexAgreementByStatus st3 st.records.length
            (Agreement.from_proposal st.time input.service_details
              input.agreed_terms input.exchange_medium input.exchange_value
              input.delivery_timeframe input.additional_conditions
              input.start_date input.completion_date).status).records = st3.records from rfl,
          records_create_agreement_links heq] at ha2
        rcases List.mem_append.mp ha2 with hmem | hmem
        · exact hinv a hmem hc
        · have : some a = some (Agreement.from_proposal st.time input.service_details
              input.agreed_terms input.exchange_medium input.exchange_value
              input.delivery_timeframe input.additional_conditions
              input.start_date input.completion_date) := List.mem_singleton.mp hmem
          cases this
          exact absurd hc (by simp [Agreement.from_proposal])

theorem validate_by_provider_inv (a : Agreement) (now : Int)
    (hinva : a.status = AgreementStatus.completed →
      a.provider_validated = true ∧ a.receiver_validated = true) :
    (a.validate_by_provider now).status = AgreementStatus.completed →
      (a.validate_by_provider now).provider_validated = true
      ∧ (a.validate_by_provider now).receiver_validated = true := by
  cases hr : a.receiver_validated with
  | true => intro _; constructor <;> simp [Agreement.validate_by_provider, hr]
  | false =>
    intro hs
    simp only [Agreement.validate_by_provider, hr, Bool.false_eq_true, if_false] at hs
    exact absurd (hinva hs).2 (by simp [hr])

theorem validate_by_receiver_inv (a : Agreement) (now : Int)
    (hinva : a.status = AgreementStatus.completed →
      a.provider_validated = true ∧ a.receiver_validated = true) :
    (a.validate_by_receiver now).status = AgreementStatus.completed →
      (a.validate_by_receiver now).provider_validated = true
      ∧ (a.validate_by_receiver now).receiver_validated = true := by
  cases hr : a.provider_validated with
  | true => intro _; constructor <;> simp [Agreement.validate_by_receiver, hr]
  | false =>
    intro hs
    simp only [Agreement.validate_by_receiver, hr, Bool.false_eq_true, if_false] at hs
    exact absurd (hinva hs).1 (by simp [hr])

theorem validate_check_inv {st : ExchState} {caller : Nat}
    {input : ValidateCompletionInput} {agreement a2 : Agreement}
    (h : validate_completion_check st caller input agreement = .ok a2)
    (hagr : agreement.status = AgreementStatus.completed →
      agreement.provider_validated = true ∧ agreement.receiver_validated = true) :
    a2.status = AgreementStatus.completed →
      a2.provider_validated = true ∧ a2.receiver_validated = true := by
  unfold validate_completion_check at h
  cases hrole : input.validator_role with
  | provider =>
    simp only [hrole] at h
    split at h
    · exact Except.noConfusion h
    · cases h; exact validate_by_provider_inv agreement st.time hagr
  | receiver =>
    simp only [hrole] at h
    split at h
    · exact Except.noConfusion h
    · cases h; exact validate_by_receiver_inv agreement st.time hagr

theorem agrInv_validate {st : ExchState} {caller : Nat} {input : ValidateCompletionInput}
    {st2 : ExchState} {h : Nat}
    (hok : validate_completion st caller input = .ok (st2, h)) (hinv : AgrInv st.records) :
    AgrInv st2.records := by
  unfold validate_completion at hok
  cases hr : st.records[input.agreement_hash]? with
  | none => simp only [hr] at hok; exact Except.noConfusion hok
  | some rec0 =>
    cases rec0 with
    | none => simp only [hr] at hok; exact Except.noConfusion hok
    | some agreement =>
      simp only [hr] at hok
      cases hchk : validate_completion_check st caller input agreement with
      | error e => simp only [hchk] at hok; exact Except.noConfusion hok
      | ok a2 =>
        simp only [hchk] at hok
        have ha2 := validate_check_inv hchk
          (fun hc => hinv agreement (List.getElem?_mem hr) hc)
        have hrecs2 : st2.records = st.records ++ [some a2] := by
          cases hok
          by_cases hmv : a2.is_mutually_validated = true <;>
            simp [hmv, indexAgreementByStatus, removeAgreementFromStatusPaths]
        intro a hmem hc
        rw [hrecs2] at hmem
        rcases List.mem_append.mp hmem with hmem | hmem
        · exact hinv a hmem hc
        · have : some a = some a2 := List.mem_singleton.mp hmem
          cases this
          exact ha2 hc

/-- C2 (amended): under any sequence of `create_agreement` and
`validate_completion` calls (no direct `update_agreement_status` overwrite),
every stored agreement revision whose status is `Completed` has both
`provider_validated` and `receiver_validated` set: `create_agreement` writes
`Active` with cleared flags and each validation sets `Completed` only when the
other flag was already set (or preserves an already-valid `Completed`). -/
theorem c2_completed_implies_both_validated (st : ExchState) (tr : List ExchCall)
    (hinv : AgrInv st.records)
    (htr : ∀ c ∈ tr, c.isStatusOverride = false) :
    AgrInv (execTrace st tr).records := by
  induction tr generalizing st with
  | nil => exact hinv
  | cons c rest ih =>
    have hc := htr c (List.mem_cons_self _ _)
    have hrest : ∀ x ∈ rest, x.isStatusOverride = false :=
      fun x hx => htr x (List.mem_cons_of_mem _ hx)
    show AgrInv (execTrace (execCall st c) rest).records
    refine ih (execCall st c) ?_ hrest
    cases c with
    | mkAgreement caller input =>
      show AgrInv (match create_agreement st caller input with
        | .ok (st2, _) => st2
        | .error _ => st).records
      cases hk : create_agreement st caller input with
      | ok pr =>
        obtain ⟨stX, hX⟩ := pr
        simpa using agrInv_create hk hinv
      | error e => simpa using hinv
    | setStatus caller input => simp [ExchCall.isStatusOverride] at hc
    | validate caller input =>
      show AgrInv (match validate_completion st caller input with
        | .ok (st2, _) => st2
        | .error _ => st).records
      cases hk : validate_completion st caller input with
      | ok pr =>
        obtain ⟨stX, hX⟩ := pr
        simpa using agrInv_validate hk hinv
      | error e => simpa using hinv

/-- Witness for C2 (amended) on the concrete environment `exchInit` and a
create-validate-validate trace. -/
theorem c2_witness :
    AgrInv (execTrace exchInit [ExchCall.mkAgreement 10 exchCreateInput,
      ExchCall.validate 10 ⟨1, ValidatorRole.provider⟩,
      ExchCall.validate 20 ⟨1, ValidatorRole.receiver⟩]).records :=
  c2_completed_implies_both_validated exchInit
    [ExchCall.mkAgreement 10 exchCreateInput,
     ExchCall.validate 10 ⟨1, ValidatorRole.provider⟩,
     ExchCall.validate 20 ⟨1, ValidatorRole.receiver⟩]
    (fun a ha => by simp [exchInit] at ha) (by decide)

/-- Counterexample for C2 as stated: with `update_agreement_status` among the
operations, a participant (or admin) can overwrite the status of a fresh
agreement to `Completed` while both validation flags are still false, and the
resulting revision is stored. -/
theorem c2_counterexample :
    ∃ a : Agreement,
      some a ∈ (execTrace exchInit
        [ExchCall.mkAgreement 10 exchCreateInput,
         ExchCall.setStatus 10 ⟨1, AgreementStatus.completed⟩]).records
      ∧ a.status = AgreementStatus.completed ∧ a.provider_validated = false :=
  ⟨(Agreement.from_proposal 100 "svc" "terms" "med" none none none none none).update_status
      AgreementStatus.completed 100,
    by decide, rfl, rfl⟩

end RAO
